import Mathlib

/-
Verification development for the EventEmitter implementation in
src/EventEmitter.js (browser/node compatible EventEmitter).

The embedding models the single emitter object: its `_events` map
(event name to ordered listener array plus the `warned` flag stored on
the array), `_maxListeners`, the `once` wrapper closures (their captured
event name, original listener and mutable `fired` flag), and the
prototype methods `emit`, `addListener`, `once`, `removeListener`,
`removeAllListeners` and `setMaxListeners`.  Listener functions are
identified by natural numbers; a listener body is described by a small
action (`Act`) interpreted against the emitter, which suffices for the
reentrant scenarios the claims are about.  All methods run inside a
fuel-indexed interpreter `run`: `Res.fuel` means the fuel ran out, which
is how non-termination of the source loops is observed (for every fuel
the result is still `Res.fuel`).  `this` is always the one emitter under
study, so the calling context is implicit.
-/

namespace EvSpec

/-- Function values: a user-supplied callback (identified by a number) or
a `once` wrapper closure (identified by its own number). -/
inductive FnV where
  | user (n : Nat)
  | wrap (w : Nat)
deriving DecidableEq, Repr

/-- JavaScript values appearing as emit arguments, thrown values and the
`_maxListeners` field.  Numbers are modelled as integers (no floats are
needed; NaN shows up only through the `Option` result of coercion). -/
inductive JsVal where
  | undef
  | null
  | bool (b : Bool)
  | num (k : Int)
  | str (s : String)
  | fn (f : FnV)
  | err (msg : String)
deriving DecidableEq, Repr

/-- One entry of `_events`: the listener array together with the `warned`
flag the source stores directly on the array object. -/
structure EvList where
  fns : List FnV
  warned : Bool
deriving DecidableEq, Repr

/-- The data captured by a `once` wrapper closure: the event name and the
original listener (`once.listener`). -/
structure WrapInfo where
  event : String
  orig : Nat
deriving DecidableEq, Repr

/-- The emitter state.  `events` is `_events` as an insertion-ordered
association list (JavaScript object key order for string keys), `maxL`
is `_maxListeners` (`JsVal.undef` when unset, as after `init`), `wraps`
records the closures built by `once`, `fired` the wrapper ids whose
`fired` flag is set, `calls` the trace of user-callback invocations with
their argument lists, and `warnings` counts emitted leak warnings.
`domain` is always `null` in the source (`init` sets it), so it is not
represented; the domain branch of `emit` is consequently dead. -/
structure EE where
  events : List (String × EvList)
  maxL : JsVal
  wraps : List (Nat × WrapInfo)
  fired : List Nat
  nextW : Nat
  calls : List (Nat × List JsVal)
  warnings : Nat
deriving DecidableEq, Repr

/-- A freshly constructed emitter. -/
def ee0 : EE := ⟨[], .undef, [], [], 0, [], 0⟩

/-- Lookup in the `_events` object. -/
def lookupEv : List (String × EvList) → String → Option EvList
  | [], _ => none
  | (k, v) :: rest, e => if k == e then some v else lookupEv rest e

def getEv (st : EE) (e : String) : Option EvList := lookupEv st.events e

/-- The listener array for an event, `[]` when the key is absent. -/
def getFns (st : EE) (e : String) : List FnV := ((getEv st e).map (·.fns)).getD []

/-- Store under a key: update in place when present (keeping object key
order), append otherwise. -/
def storeEv : List (String × EvList) → String → EvList → List (String × EvList)
  | [], e, v => [(e, v)]
  | (k, w) :: rest, e, v => if k == e then (k, v) :: rest else (k, w) :: storeEv rest e v

def setEv (st : EE) (e : String) (v : EvList) : EE :=
  { st with events := storeEv st.events e v }

/-- `delete this._events[event]`. -/
def dropEv : List (String × EvList) → String → List (String × EvList)
  | [], _ => []
  | (k, w) :: rest, e => if k == e then rest else (k, w) :: dropEv rest e

def delEv (st : EE) (e : String) : EE := { st with events := dropEv st.events e }

def wrapLookup : List (Nat × WrapInfo) → Nat → WrapInfo
  | [], _ => ⟨"", 0⟩
  | (k, i) :: rest, w => if k == w then i else wrapLookup rest w

/-- The closure data of wrapper `w`; wrappers are always registered in
`wraps` before they can be referenced. -/
def wrapInfoOf (st : EE) (w : Nat) : WrapInfo := wrapLookup st.wraps w

/-- The value `listeners[index].listener || listeners[index]` used by
`removeListener` for comparison, and `typeof listener.listener ===
"function" ? listener.listener : listener` used by `addListener`: a
`once` wrapper carries `.listener` (the original callback, always a
function, hence truthy), a plain function carries none. -/
def matchKey (st : EE) (f : FnV) : FnV :=
  match f with
  | .user n => .user n
  | .wrap w => .user (wrapInfoOf st w).orig

/-- The backward scan of `removeListener`:
`while (~--index && (!(index in listeners) || listener !== (listeners[index].listener || listeners[index])));`.
The `Nat` argument is the index plus one, so `scanLoop _ _ _ (i+1)`
inspects position `i` and `scanLoop _ _ _ 0` is the loop having reached
index `-1`.  A missing slot (`!(index in listeners)`, the sparse-array
guard) is skipped; the model uses compact lists, where `List.get?`
returns `none` only past the end. -/
def scanLoop (st : EE) (l : List FnV) (f : FnV) : Nat → Option Nat
  | 0 => none
  | i + 1 =>
    match l.get? i with
    | some entry => if matchKey st entry == f then some i else scanLoop st l f i
    | none => scanLoop st l f i

/-- JavaScript ToNumber on the fragment of values used here; `none` is
NaN.  Strings are covered for the empty string and plain digit literals,
the only kinds exercised in this development. -/
def strToNumber (s : String) : Option Int :=
  if s = "" then some 0 else (s.toNat?).map Int.ofNat

def jsToNumber : JsVal → Option Int
  | .undef => none
  | .null => some 0
  | .bool b => some (if b then 1 else 0)
  | .num k => some k
  | .str s => strToNumber s
  | .fn _ => none
  | .err _ => none

/-- `n < 0` with JavaScript coercion; comparisons with NaN are false. -/
def jsLtZero (v : JsVal) : Bool :=
  match jsToNumber v with
  | some k => k < 0
  | none => false

/-- `isNaN(n)` (coercing). -/
def jsIsNaN (v : JsVal) : Bool := (jsToNumber v).isNone

/-- `max > 0` with coercion. -/
def jsGtZero (v : JsVal) : Bool :=
  match jsToNumber v with
  | some k => 0 < k
  | none => false

/-- `count > max` with coercion, `count` being an array length. -/
def jsCountGt (count : Nat) (v : JsVal) : Bool :=
  match jsToNumber v with
  | some k => k < (count : Int)
  | none => false

/-- The first disjunct `!typeof n === 'number'` of the `setMaxListeners`
guard.  It parses as `(!(typeof n)) === 'number'`: `typeof` always
yields a non-empty string, which is truthy, so `!(typeof n)` is the
boolean `false`, and `false === 'number'` is `false` for every argument. -/
def notTypeofNumber (_ : JsVal) : Bool := false

/-- What a user callback body does when invoked: nothing, or a reentrant
`this.removeListener(e, target)` call.  This covers the non-mutating and
the registry-mutating listeners the claims quantify over. -/
inductive Act where
  | nop
  | rmL (e : String) (target : FnV)
deriving DecidableEq, Repr

/-- The method calls and loop states of the interpreter.  `emitLoop`
carries the `length` cached by `emit` at entry and the current `index`;
`drain` is the `while (listeners.length)` loop of `removeAllListeners`
with an event argument; `removeKeys` is its `for (key in this._events)`
loop over the keys other than `"removeListener"`. -/
inductive Cmd where
  | emit (e : String) (args : List JsVal)
  | emitLoop (e : String) (args : List JsVal) (length index : Nat)
  | call (f : FnV) (args : List JsVal)
  | removeL (e : String) (f : FnV)
  | addL (e : String) (f : FnV)
  | once (e : String) (f : Nat)
  | removeAll (e : Option String)
  | removeKeys (ks : List String)
  | drain (e : String)
deriving DecidableEq, Repr

/-- Outcome of a step: normal completion with the boolean return of
`emit` (other methods return the emitter, recorded as `true`), a thrown
value propagating out, or fuel exhaustion with the state reached. -/
inductive Res where
  | ok (st : EE) (ret : Bool)
  | thrown (st : EE) (v : JsVal)
  | fuel (st : EE)
deriving DecidableEq, Repr

/-- One unfolding of the interpreter; `rec` performs the recursive steps.

* `emit`: caches `length = listeners && listeners.length`; when falsy,
  throws `arg1` for `"error"` (the domain is always null, so the branch
  synthesizing `new Error(...)` is unreachable) and returns `false`
  otherwise; else enters the arity `switch`, whose cases all have the
  identical shape `listeners[index] && listeners[index++].call/apply(this, ...)`
  forwarding the arguments, modelled uniformly by `emitLoop`.
* `emitLoop`: reads the LIVE array each iteration (the source reads
  through the array reference captured at entry; both coincide as long
  as no listener deletes and recreates the key mid-dispatch, which no
  scenario here does).  A present slot is called and the index advances;
  an absent slot means the guard expression is falsy and `index++` is not
  evaluated, so the loop retries the same index.
* `call`: a user callback is recorded in the trace and its `Act` body
  runs; a wrapper runs the `once` closure body: remove itself first,
  then, if not yet fired, set `fired` and invoke the original with the
  same arguments.
* `removeL`: the `typeof listener !== "function"` guard cannot fire
  here because arguments are function values by construction; then the
  backward scan, splice of the last match, and the `"removeListener"`
  emit exactly when a match was spliced.
* `addL`: `newListener` emit first (with `listener.listener` when that
  is a function), then push and the leak-warning check.
* `removeAll` with a name: when the key is present (an empty array is
  truthy), drain from the end through `removeListener`, then delete the
  key.  Without a name: when `this._events.removeListener` is truthy,
  first every other key (key list taken in object order; the drains only
  delete already-visited keys in the scenarios here, matching the live
  `for..in`), then `"removeListener"` itself, then `_events = {}`. -/
def runBody (beh : Nat → Act) (rec : EE → Cmd → Res) (st : EE) (c : Cmd) : Res :=
  match c with
  | .emit e args =>
    let len := (getFns st e).length
    if len = 0 then
      if e = "error" then .thrown st (args.headD .undef)
      else .ok st false
    else rec st (.emitLoop e args len 0)
  | .emitLoop e args len idx =>
    if idx < len then
      match (getFns st e).get? idx with
      | some f =>
        match rec st (.call f args) with
        | .ok st1 _ => rec st1 (.emitLoop e args len (idx + 1))
        | r => r
      | none => rec st (.emitLoop e args len idx)
    else .ok st true
  | .call f args =>
    match f with
    | .user n =>
      let st1 := { st with calls := st.calls ++ [(n, args)] }
      match beh n with
      | .nop => .ok st1 true
      | .rmL e t => rec st1 (.removeL e t)
    | .wrap w =>
      let info := wrapInfoOf st w
      match rec st (.removeL info.event (.wrap w)) with
      | .ok st1 _ =>
        if w ∈ st1.fired then .ok st1 true
        else rec { st1 with fired := w :: st1.fired } (.call (.user info.orig) args)
      | r => r
  | .removeL e f =>
    match getEv st e with
    | none => .ok st true
    | some ev =>
      match scanLoop st ev.fns f ev.fns.length with
      | none => .ok st true
      | some i =>
        let st1 := setEv st e { ev with fns := ev.fns.eraseIdx i }
        match rec st1 (.emit "removeListener" [.str e, .fn f]) with
        | .ok st2 _ => .ok st2 true
        | r => r
  | .addL e f =>
    match rec st (.emit "newListener" [.str e, .fn (matchKey st f)]) with
    | .ok st1 _ =>
      let ev := (getEv st1 e).getD ⟨[], false⟩
      let fns := ev.fns ++ [f]
      let maxv := if st1.maxL = JsVal.undef then JsVal.num 10 else st1.maxL
      if jsGtZero maxv && !ev.warned && jsCountGt fns.length maxv then
        .ok { setEv st1 e ⟨fns, true⟩ with warnings := st1.warnings + 1 } true
      else .ok (setEv st1 e ⟨fns, ev.warned⟩) true
    | r => r
  | .once e f =>
    let w := st.nextW
    let st1 := { st with nextW := w + 1, wraps := st.wraps ++ [(w, ⟨e, f⟩)] }
    rec st1 (.addL e (.wrap w))
  | .removeAll oe =>
    match oe with
    | some e =>
      match getEv st e with
      | none => .ok st true
      | some _ =>
        match rec st (.drain e) with
        | .ok st1 _ => .ok (delEv st1 e) true
        | r => r
    | none =>
      if (getEv st "removeListener").isSome then
        match rec st (.removeKeys ((st.events.map Prod.fst).filter
            (fun k => !(k == "removeListener")))) with
        | .ok st1 _ =>
          match rec st1 (.removeAll (some "removeListener")) with
          | .ok st2 _ => .ok { st2 with events := [] } true
          | r => r
        | r => r
      else .ok { st with events := [] } true
  | .removeKeys ks =>
    match ks with
    | [] => .ok st true
    | k :: rest =>
      match rec st (.removeAll (some k)) with
      | .ok st1 _ => rec st1 (.removeKeys rest)
      | r => r
  | .drain e =>
    match (getFns st e).getLast? with
    | none => .ok st true
    | some last =>
      match rec st (.removeL e last) with
      | .ok st1 _ => rec st1 (.drain e)
      | r => r

/-- The fuel-indexed interpreter. -/
def run (beh : Nat → Act) : Nat → EE → Cmd → Res
  | 0, st, _ => .fuel st
  | fuel + 1, st, c => runBody beh (run beh fuel) st c

/-- `setMaxListeners`, verbatim from the source guard
`if (!typeof n === 'number' || n < 0 || isNaN(n)) throw TypeError(...)`. -/
def setMaxListeners (st : EE) (n : JsVal) : Res :=
  if notTypeofNumber n || jsLtZero n || jsIsNaN n then
    .thrown st (.err "n must be a positive number")
  else .ok { st with maxL := n } true

/-- `listeners(event)`: the copy the source builds with `Array.apply`;
in the functional model the copy is the list itself. -/
def listeners (st : EE) (e : String) : List FnV := getFns st e

/-- Whether position `i` of the listener array matches `f` under the
`removeListener` comparison. -/
def matchAt (st : EE) (l : List FnV) (f : FnV) (i : Nat) : Bool :=
  match l.get? i with
  | some x => matchKey st x == f
  | none => false

/-- `k` is the last position matching `f`. -/
def isLastMatch (st : EE) (l : List FnV) (f : FnV) (k : Nat) : Prop :=
  matchAt st l f k = true ∧ ∀ j, k < j → matchAt st l f j = false

/-- The wrapping `removeListener` applies to the result of its inner
`emit("removeListener", ...)`: the method itself returns the emitter. -/
def fluent : Res → Res
  | .ok st _ => .ok st true
  | r => r

/-- All listeners do nothing beyond being recorded. -/
def behNop : Nat → Act := fun _ => .nop

/-- The emitter after `once("x", f0)` on a fresh emitter: wrapper `0`
registered for `"x"`, closure data recorded, `fired` not yet set. -/
def stOnce : EE :=
  { ee0 with events := [("x", ⟨[.wrap 0], false⟩)], wraps := [(0, ⟨"x", 0⟩)], nextW := 1 }

/-- The emitter after one `emit("x")` from `stOnce`: the wrapper is
STILL registered (its self-removal never matches), `fired` is set, and
the original callback ran once. -/
def stFired : EE := { stOnce with fired := [0], calls := [(0, [])] }

/-- Listener behaviors for the snapshot claim: callback `0` removes
itself from `"x"` when invoked, every other callback is passive. -/
def beh1 : Nat → Act := fun n => if n = 0 then .rmL "x" (.user 0) else .nop

/-- Two plain listeners `f0, f1` registered for `"x"`. -/
def ee1 : EE := { ee0 with events := [("x", ⟨[.user 0, .user 1], false⟩)] }

/-- The state `emit("x")` from `ee1` gets stuck in: `f0` ran and
spliced itself out, `f1` shifted to index 0, and the loop is waiting at
index 1 of a one-element array with the cached length still 2. -/
def stuck1 : EE := { ee1 with events := [("x", ⟨[.user 1], false⟩)], calls := [(0, [])] }

/-- Behaviors for the absent-slot claim: callback `2` removes itself
from `"y"`. -/
def beh2 : Nat → Act := fun n => if n = 2 then .rmL "y" (.user 2) else .nop

/-- Two plain listeners `f2, f3` registered for `"y"`. -/
def ee2 : EE := { ee0 with events := [("y", ⟨[.user 2, .user 3], false⟩)] }

/-- The stuck state of `emit("y")` from `ee2`. -/
def stuck2 : EE := { ee2 with events := [("y", ⟨[.user 3], false⟩)], calls := [(2, [])] }

/-- Two passive observers on `"removeListener"` and one listener on
`"x"`. -/
def ee5 : EE :=
  { ee0 with events :=
      [("removeListener", ⟨[.user 10, .user 11], false⟩), ("x", ⟨[.user 12], false⟩)] }

/-- The outcome of `removeAllListeners()` from `ee5`: observer 10 saw
the removal of the `"x"` listener AND the removal of observer 11. -/
def st5 : EE :=
  { ee0 with calls :=
      [(10, [.str "x", .fn (.user 12)]),
       (11, [.str "x", .fn (.user 12)]),
       (10, [.str "removeListener", .fn (.user 11)])] }

/-- A single passive observer on `"removeListener"` plus listeners on
`"x"` and `"y"`. -/
def ee5b : EE :=
  { ee0 with events :=
      [("removeListener", ⟨[.user 20], false⟩),
       ("x", ⟨[.user 21], false⟩), ("y", ⟨[.user 22], false⟩)] }

/-- The outcome of `removeAllListeners()` from `ee5b`: exactly one
observation per listener removed on the other names, none for the
observer itself. -/
def st5b : EE :=
  { ee0 with calls :=
      [(20, [.str "x", .fn (.user 21)]),
       (20, [.str "y", .fn (.user 22)])] }

/-- One further `emit("x")` (with ample fuel) as a state transformer,
for iterating dispatches. -/
def onceStep (st : EE) : EE :=
  match run behNop 9 st (.emit "x" []) with
  | .ok st1 _ => st1
  | _ => st

/-- A listener array with a duplicate registration, for exercising the
last-match rule of `removeListener`. -/
def st9w : EE := { ee0 with events := [("z", ⟨[.user 5, .user 6, .user 5], false⟩)] }

/-- `ee0` after a first `addListener(e, f1)`: `newListener` found no
listeners, the entry was pushed, no warning (1 <= 10). -/
def oneListener (e : String) (a : Nat) : EE :=
  { ee0 with events := [(e, ⟨[.user a], false⟩)] }

/-- …and after the second `addListener(e, f2)`. -/
def twoListeners (e : String) (a b : Nat) : EE :=
  { ee0 with events := [(e, ⟨[.user a, .user b], false⟩)] }

end EvSpec

namespace EvSpec

/-- Unfolding the interpreter at zero fuel. -/
theorem run_zero (beh : Nat → Act) (st : EE) (c : Cmd) : run beh 0 st c = .fuel st := rfl

/-- Unfolding the interpreter at positive fuel. -/
theorem run_succ (beh : Nat → Act) (fuel : Nat) (st : EE) (c : Cmd) :
    run beh (fuel + 1) st c = runBody beh (run beh fuel) st c := rfl

/-- When the cached length exceeds the live array and the loop index has
reached an absent slot, the guard `listeners[index] &&` short-circuits,
`index++` is never evaluated, and the dispatch loop repeats the same
index for ever: whatever the fuel, the loop neither completes nor
changes the state. -/
theorem emitLoop_absent_spins (beh : Nat → Act) (st : EE) (e : String) (args : List JsVal)
    (len idx : Nat) (h1 : idx < len) (h2 : (getFns st e).get? idx = none) :
    ∀ fuel, run beh fuel st (.emitLoop e args len idx) = .fuel st := by
  intro fuel
  induction fuel with
  | zero => rfl
  | succ n ih =>
    rw [run_succ]
    simp only [runBody]
    rw [if_pos h1, h2]
    exact ih

/-- C1: the source does NOT snapshot.  `emit` iterates the live array
with the length cached at entry.  Failing input: two plain listeners
`f0, f1` on `"x"` where `f0` removes itself (`beh1`, `ee1`).  `f0` runs
and splices itself out, `f1` shifts to index 0, the loop then reads the
now-absent index 1 and, the index advancing only on present slots, spins
for ever: for EVERY fuel the dispatch is still unfinished in the stuck
state `stuck1`, whose trace shows `f1` was never invoked — it was
skipped, and the dispatch never returns, contradicting the claimed
snapshot semantics under which `f1` still fires and `emit` completes. -/
theorem emit_live_no_snapshot :
    (∀ fuel, run beh1 (fuel + 6) ee1 (.emit "x" []) = .fuel stuck1) ∧
    stuck1.calls = [(0, [])] ∧ listeners stuck1 "x" = [.user 1] := by
  refine ⟨fun fuel => ?_, rfl, rfl⟩
  have h : run beh1 (fuel + 6) ee1 (.emit "x" []) =
      run beh1 (fuel + 4) stuck1 (.emitLoop "x" [] 2 1) := rfl
  rw [h]
  exact emitLoop_absent_spins beh1 stuck1 "x" [] 2 1 (by omega) rfl (fuel + 4)

/-- C10 counterexample: the claim that an absent slot "is skipped" and
that `emit` cannot fail from iterating past the shrunken list is false.
With listeners `f2, f3` on `"y"` where `f2` removes itself (`beh2`,
`ee2`), the dispatch at fuel 30 is still stuck at index 1 of the
one-element live array: the slot was not skipped, the loop never
advanced, and `f3` never ran. -/
theorem emit_absent_slot_no_skip : run beh2 30 ee2 (.emit "y" []) = .fuel stuck2 := by decide

/-- C10 amended: in every arity branch the slot IS tested before the
call, so no attempt is ever made to invoke an absent entry and nothing
is thrown — but because `index++` sits inside the guarded expression,
the index does not advance past an absent slot, and once mid-dispatch
removals shrink the live list below the cached length the loop repeats
the same index for ever (the state, and in particular the trace, never
changes again) instead of skipping the slot. -/
theorem emit_absent_slot_spins :
    (∀ fuel, run beh2 fuel stuck2 (.emitLoop "y" [] 2 1) = .fuel stuck2) ∧
    stuck2.calls = [(2, [])] :=
  ⟨fun fuel => emitLoop_absent_spins beh2 stuck2 "y" [] 2 1 (by omega) rfl fuel, rfl⟩

/-- Passing the once wrapper itself to `removeListener` never matches:
the scan compares the argument against `listeners[index].listener ||
listeners[index]`, and the wrapper entry exposes its `.listener` (the
original callback), never the wrapper.  So the call leaves the state
unchanged and emits nothing. -/
theorem removeL_wrap_noop (m : Nat) :
    run behNop (m + 1) stOnce (.removeL "x" (.wrap 0)) = .ok stOnce true := rfl

/-- The `while (listeners.length)` loop of `removeAllListeners("x")` on
a once entry: each iteration calls `removeListener("x", wrapper)`, which
never matches, so the array never shrinks and the loop never exits. -/
theorem drain_once_stuck : ∀ fuel, run behNop fuel stOnce (.drain "x") = .fuel stOnce := by
  intro fuel
  induction fuel with
  | zero => rfl
  | succ n ih =>
    rw [run_succ]
    cases n with
    | zero => rfl
    | succ m =>
      show (match run behNop (m + 1) stOnce (.removeL "x" (.wrap 0)) with
            | Res.ok st1 _ => run behNop (m + 1) st1 (.drain "x")
            | r => r) = .fuel stOnce
      rw [removeL_wrap_noop m]
      exact ih

/-- C3: `removeAllListeners(eventName)` does NOT terminate on a state
whose listener list contains a once-wrapped entry.  Failing input:
`once("x", f)` on a fresh emitter (first conjunct) followed by
`removeAllListeners("x")`.  The loop removes from the end through
`removeListener("x", listeners[length-1])`, but the entry is the
wrapper, which the scan compares against its `.listener` (the original
`f`), so no entry is ever removed, the length never decreases and the
`while` loop runs for ever: for EVERY fuel the call is still spinning
with the state unchanged — the key is never deleted and no
`removeListener` event is ever emitted. -/
theorem removeAll_once_diverges :
    run behNop 3 ee0 (.once "x" 0) = .ok stOnce true ∧
    ∀ fuel, run behNop fuel stOnce (.removeAll (some "x")) = .fuel stOnce := by
  refine ⟨by decide, fun fuel => ?_⟩
  cases fuel with
  | zero => rfl
  | succ n =>
    rw [run_succ]
    show (match run behNop n stOnce (.drain "x") with
          | Res.ok st1 _ => Res.ok (delEv st1 "x") true
          | r => r) = .fuel stOnce
    rw [drain_once_stuck n]

/-- C2: the once wrapper does NOT remove itself.  Failing input:
`once("x", f)` then `emit("x")`.  The wrapper body calls
`this.removeListener(event, once)`, but `removeListener` compares the
passed wrapper against each entry`s `.listener` — for the wrapper entry
that is the original `f`, never the wrapper — so the scan finds no
match.  After one dispatch the wrapper is still in the listener
sequence, and a second dispatch with no other listeners returns `true`
(not `false` as claimed), its `fired` guard merely suppressing the
second invocation of `f`. -/
theorem once_wrapper_never_removed :
    run behNop 3 ee0 (.once "x" 0) = .ok stOnce true ∧
    run behNop 9 stOnce (.emit "x" []) = .ok stFired true ∧
    listeners stFired "x" = [.wrap 0] ∧
    stFired.calls = [(0, [])] ∧
    run behNop 9 stFired (.emit "x" []) = .ok stFired true := by
  exact ⟨by decide, by decide, rfl, rfl, by decide⟩

/-- C4 counterexample: `emit("error")` with no payload and no `"error"`
listener throws the raw `undefined`, not a synthesized generic error:
the claim that the caller never observes a raised non-error placeholder
is false on a fresh emitter. -/
theorem emit_error_throws_undefined : run behNop 1 ee0 (.emit "error" []) = .thrown ee0 .undef :=
  rfl

/-- C4 amended: with no `"error"` listener registered, `dispatch("error",
...args)` always raises, and the raised value is `args[0]` exactly as
given (`undefined` when absent) whether or not it is error-like; the
generic `new Error("Uncaught, unspecified ...")` synthesis sits only on
the domain branch, which is unreachable because `init` pins the domain
to null. -/
theorem emit_error_rethrows_payload (beh : Nat → Act) (fuel : Nat) (st : EE)
    (args : List JsVal) (h : getFns st "error" = []) :
    run beh (fuel + 1) st (.emit "error" args) = .thrown st (args.headD .undef) := by
  rw [run_succ]
  simp [runBody, h]

/-- Witness for `emit_error_rethrows_payload` at a fresh emitter with a
concrete non-error payload. -/
theorem emit_error_rethrows_payload_witness :
    getFns ee0 "error" = [] ∧
    run behNop 1 ee0 (.emit "error" [.num 7]) = .thrown ee0 (.num 7) :=
  ⟨rfl, emit_error_rethrows_payload behNop 0 ee0 [.num 7] rfl⟩

/-- C5 counterexample: with TWO passive listeners (ids 10 and 11) on
`"removeListener"` and one listener on `"x"` (state `ee5`),
`removeAllListeners()` makes listener 10 observe the removal of
listener 11: the trace contains the event `("removeListener", f11)`
delivered to 10, contradicting the claim that the removal of the
`"removeListener"` listeners themselves is observed by nobody.  (The
removal emit happens after the splice, so every observer still
registered earlier in the array sees it.) -/
theorem removeAll_observers_observe_each_other :
    run behNop 30 ee5 (.removeAll none) = .ok st5 true ∧
    (10, [JsVal.str "removeListener", JsVal.fn (.user 11)]) ∈ st5.calls :=
  ⟨by decide, by decide⟩

/-- C5 amended: with exactly ONE listener on `"removeListener"` the
claim holds: calling `removeAllListeners()` it observes exactly one
`removeListener` event per listener removed across the other event
names (here one for `"x"` and one for `"y"`, in key order), zero events
for its own removal (when it is spliced the array is empty, so the emit
finds no listeners), and the listener map ends empty.  With several
`"removeListener"` listeners, observers registered earlier observe the
removals of the later-registered ones (see the counterexample). -/
theorem removeAll_single_observer :
    run behNop 30 ee5b (.removeAll none) = .ok st5b true ∧
    st5b.calls = [(20, [.str "x", .fn (.user 21)]), (20, [.str "y", .fn (.user 22)])] ∧
    st5b.events = [] :=
  ⟨by decide, rfl, rfl⟩

/-- C6: the guard of `setMaxListeners` is broken.  Its first disjunct
`!typeof n === 'number'` parses as `(!(typeof n)) === 'number'`, which
is `false` for every argument, so the effective check is only
`n < 0 || isNaN(n)` under coercion.  Failing input: `setMaxListeners(null)`
— `null` is not a number, yet `null < 0` and `isNaN(null)` are both
false (ToNumber(null) = 0), so no TypeError is raised and
`_maxListeners` is set to `null` (first conjunct).  Arguments whose
coercion is NaN, such as `undefined`, still throw (second conjunct). -/
theorem setMaxListeners_null_accepted :
    setMaxListeners ee0 .null = .ok { ee0 with maxL := .null } true ∧
    setMaxListeners ee0 .undef = .thrown ee0 (.err "n must be a positive number") :=
  ⟨rfl, rfl⟩

/-- One unfolding of the backward scan: position `i` is inspected first,
then the scan continues below. -/
theorem scanLoop_step (st : EE) (l : List FnV) (f : FnV) (i : Nat) :
    scanLoop st l f (i + 1) = if matchAt st l f i then some i else scanLoop st l f i := by
  show (match l.get? i with
        | some entry => if matchKey st entry == f then some i else scanLoop st l f i
        | none => scanLoop st l f i) =
      if matchAt st l f i then some i else scanLoop st l f i
  unfold matchAt
  cases h : l.get? i <;> simp [h]

/-- The comparison value `listeners[index].listener || listeners[index]`
is never a wrapper (a wrapper always exposes its original), so a scan
for a wrapper argument finds nothing in any list. -/
theorem scanLoop_wrap_none (st : EE) (l : List FnV) (w : Nat) :
    ∀ n, scanLoop st l (.wrap w) n = none := by
  intro n
  induction n with
  | zero => rfl
  | succ m ih =>
    rw [scanLoop_step]
    have hm : matchAt st l (.wrap w) m = false := by
      unfold matchAt
      cases h : l.get? m with
      | none => rfl
      | some x => cases x <;> simp [matchKey]
    simp [hm, ih]

/-- The `fired` guard of the once closure: invoking a wrapper whose
`fired` flag is set performs its (always fruitless) self-removal and
then does nothing — the state is returned unchanged and no callback is
invoked, whatever the listener behaviors, state and arguments. -/
theorem wrap_fired_guard (beh : Nat → Act) (st : EE) (w : Nat) (args : List JsVal)
    (fuel : Nat) (h : w ∈ st.fired) :
    run beh (fuel + 2) st (.call (.wrap w) args) = .ok st true := by
  have hrm : run beh (fuel + 1) st (.removeL (wrapInfoOf st w).event (.wrap w)) = .ok st true := by
    rw [run_succ]
    cases hev : getEv st (wrapInfoOf st w).event with
    | none => simp [runBody, hev]
    | some ev => simp [runBody, hev, scanLoop_wrap_none]
  have h2 : fuel + 2 = (fuel + 1) + 1 := rfl
  rw [h2, run_succ]
  simp only [runBody]
  rw [hrm]
  simp [h]

/-- C7: `registerOnce("x", f)` followed by any number of `dispatch("x")`
calls invokes the original `f` exactly once, on the first dispatch.
After `once` (state `stOnce`) the first `emit("x")` runs `f` once
(trace `[(0, [])]`, state `stFired`); every further `emit("x")` leaves
the state — in particular the trace — exactly unchanged (fourth
conjunct, for any number of iterated dispatches).  The last conjunct is
the "already fired" guard in general: invoking a wrapper whose `fired`
flag is set never invokes the original, for every state, behavior
assignment and argument list, which is what makes a second invocation
of `f` structurally impossible even under reentrant removal. -/
theorem once_fires_exactly_once :
    run behNop 3 ee0 (.once "x" 0) = .ok stOnce true ∧
    run behNop 9 stOnce (.emit "x" []) = .ok stFired true ∧
    stFired.calls = [(0, [])] ∧
    (∀ n, onceStep^[n] stFired = stFired) ∧
    (∀ (beh : Nat → Act) (st : EE) (w : Nat) (args : List JsVal) (fuel : Nat),
      w ∈ st.fired → run beh (fuel + 2) st (.call (.wrap w) args) = .ok st true) := by
  refine ⟨by decide, by decide, rfl, fun n => ?_, wrap_fired_guard⟩
  induction n with
  | zero => rfl
  | succ m ih =>
    rw [Function.iterate_succ_apply]
    have hstep : onceStep stFired = stFired := rfl
    rw [hstep, ih]

/-- Witness for `once_fires_exactly_once`: the fired-guard conjunct
applied at the concrete post-dispatch state. -/
theorem once_fires_exactly_once_witness :
    0 ∈ stFired.fired ∧ run behNop 2 stFired (.call (.wrap 0) []) = .ok stFired true :=
  ⟨by decide, once_fires_exactly_once.2.2.2.2 behNop stFired 0 [] 0 (by decide)⟩

/-- C8: from a fresh emitter, `register(e, f1)` then `register(e, f2)`
(for any event name other than the reserved `"newListener"`, any
callback identities and any argument payload) build the two-entry
listener list in registration order; `dispatch(e, args)` then invokes
`f1` followed by `f2`, each receiving exactly `args` (the emitter is the
implicit calling context throughout the model), and returns `true`;
`dispatch` on any other event name, not `"error"`, with no registered
listeners returns `false`, invokes nothing and changes nothing. -/
theorem emit_two_listeners_order (e eo : String) (args argso : List JsVal) (a b : Nat)
    (hne : e ≠ "newListener") (hoe : eo ≠ e) (hoerr : eo ≠ "error") (fuel : Nat) :
    run behNop (fuel + 2) ee0 (.addL e (.user a)) = .ok (oneListener e a) true ∧
    run behNop (fuel + 2) (oneListener e a) (.addL e (.user b)) = .ok (twoListeners e a b) true ∧
    run behNop (fuel + 4) (twoListeners e a b) (.emit e args) =
      .ok { twoListeners e a b with calls := [(a, args), (b, args)] } true ∧
    run behNop (fuel + 1) (twoListeners e a b) (.emit eo argso) =
      .ok (twoListeners e a b) false := by
  refine ⟨rfl, ?_, ?_, ?_⟩
  · have h21 : fuel + 2 = (fuel + 1) + 1 := rfl
    rw [h21, run_succ]
    simp [runBody, run_succ, matchKey, getFns, getEv, lookupEv, oneListener, twoListeners,
      ee0, setEv, storeEv, jsGtZero, jsCountGt, jsToNumber, behNop, hne]
  · have h41 : fuel + 4 = (((fuel + 1) + 1) + 1) + 1 := rfl
    rw [h41, run_succ]
    simp [runBody, run_succ, getFns, getEv, lookupEv, twoListeners, ee0, behNop]
  · rw [run_succ]
    simp [runBody, getFns, getEv, lookupEv, twoListeners, ee0, Ne.symm hoe, hoerr]

/-- Witness for `emit_two_listeners_order` at `e = "x"`, `eo = "y"`,
payload `[1]`, callbacks `1` and `2`. -/
theorem emit_two_listeners_order_witness :
    ("x" : String) ≠ "newListener" ∧ ("y" : String) ≠ "x" ∧ ("y" : String) ≠ "error" ∧
    (run behNop 4 ee0 (.addL "x" (.user 1)) = .ok (oneListener "x" 1) true ∧
     run behNop 4 (oneListener "x" 1) (.addL "x" (.user 2)) = .ok (twoListeners "x" 1 2) true ∧
     run behNop 6 (twoListeners "x" 1 2) (.emit "x" [.num 1]) =
       .ok { twoListeners "x" 1 2 with calls := [(1, [.num 1]), (2, [.num 1])] } true ∧
     run behNop 3 (twoListeners "x" 1 2) (.emit "y" []) = .ok (twoListeners "x" 1 2) false) :=
  ⟨by decide, by decide, by decide,
    emit_two_listeners_order "x" "y" [.num 1] [] 1 2 (by decide) (by decide) (by decide) 2⟩

/-- Past the end of the listener array nothing matches. -/
theorem matchAt_false_of_le (st : EE) (l : List FnV) (f : FnV) (j : Nat)
    (h : l.length ≤ j) : matchAt st l f j = false := by
  unfold matchAt
  rw [List.get?_eq_none.mpr h]

/-- A matching position is inside the listener array. -/
theorem matchAt_lt (st : EE) (l : List FnV) (f : FnV) (i : Nat)
    (h : matchAt st l f i = true) : i < l.length := by
  by_contra hc
  rw [matchAt_false_of_le st l f i (by omega)] at h
  cases h

/-- The scan returns `none` exactly when no inspected position matches. -/
theorem scanLoop_eq_none (st : EE) (l : List FnV) (f : FnV) :
    ∀ n, (scanLoop st l f n = none ↔ ∀ i, i < n → matchAt st l f i = false) := by
  intro n
  induction n with
  | zero => simp [scanLoop]
  | succ m ih =>
    rw [scanLoop_step]
    by_cases hm : matchAt st l f m = true
    · rw [if_pos hm]
      constructor
      · intro hc; exact absurd hc (by simp)
      · intro hall
        have := hall m (Nat.lt_succ_self m)
        rw [hm] at this
        cases this
    · have hm2 : matchAt st l f m = false := by simpa using hm
      rw [if_neg hm, ih]
      constructor
      · intro hall i hi
        rcases Nat.lt_succ_iff_lt_or_eq.mp hi with hlt | heq
        · exact hall i hlt
        · rw [heq]; exact hm2
      · intro hall i hi
        exact hall i (Nat.lt_succ_of_lt hi)

/-- The scan stops at the LAST matching position: a result `some k` is a
match and nothing above `k` up to the scanned bound matches. -/
theorem scanLoop_eq_some (st : EE) (l : List FnV) (f : FnV) :
    ∀ n k, scanLoop st l f n = some k →
      k < n ∧ matchAt st l f k = true ∧ ∀ j, k < j → j < n → matchAt st l f j = false := by
  intro n
  induction n with
  | zero => intro k h; cases h
  | succ m ih =>
    intro k h
    rw [scanLoop_step] at h
    by_cases hm : matchAt st l f m = true
    · rw [if_pos hm] at h
      injection h with h
      subst h
      exact ⟨Nat.lt_succ_self _, hm, fun j hj1 hj2 => absurd hj2 (by omega)⟩
    · rw [if_neg hm] at h
      have hm2 : matchAt st l f m = false := by simpa using hm
      obtain ⟨h1, h2, h3⟩ := ih k h
      refine ⟨by omega, h2, fun j hj1 hj2 => ?_⟩
      rcases Nat.lt_succ_iff_lt_or_eq.mp hj2 with hlt | heq
      · exact h3 j hj1 hlt
      · rw [heq]; exact hm2

/-- Two last-match positions coincide. -/
theorem isLastMatch_unique (st : EE) (l : List FnV) (f : FnV) (k1 k2 : Nat)
    (h1 : isLastMatch st l f k1) (h2 : isLastMatch st l f k2) : k1 = k2 := by
  rcases Nat.lt_trichotomy k1 k2 with h | h | h
  · have := h1.2 k2 h
    rw [h2.1] at this
    cases this
  · exact h
  · have := h2.2 k1 h
    rw [h1.1] at this
    cases this

/-- C9: `removeListener(e, f)` behaves as the backward last-match rule.
When the event name is unknown (first conjunct) or no entry matches `f`
under the comparison `listeners[index].listener || listeners[index]`
(second conjunct), the call is a no-op: it returns normally with the
state unchanged, raising nothing and emitting nothing.  When `k` is the
last matching position (`isLastMatch`), the call splices exactly the
entry at `k` and then — exactly because a match was removed — emits one
`"removeListener"` event carrying `e` and `f` from the spliced state,
returning the emitter (third conjunct, via `fluent`).  This holds for
every state, behavior assignment, event name and callable argument. -/
theorem removeListener_last_match_spec (beh : Nat → Act) (fuel : Nat) (st : EE)
    (e : String) (f : FnV) :
    (getEv st e = none → run beh (fuel + 1) st (.removeL e f) = .ok st true) ∧
    ∀ ev, getEv st e = some ev →
      ((∀ i, matchAt st ev.fns f i = false) →
        run beh (fuel + 1) st (.removeL e f) = .ok st true) ∧
      (∀ k, isLastMatch st ev.fns f k →
        run beh (fuel + 1) st (.removeL e f) =
          fluent (run beh fuel (setEv st e { ev with fns := ev.fns.eraseIdx k })
            (.emit "removeListener" [.str e, .fn f]))) := by
  rw [run_succ]
  refine ⟨fun h => by simp [runBody, h], fun ev hev => ⟨fun hnone => ?_, fun k hk => ?_⟩⟩
  · have hscan : scanLoop st ev.fns f ev.fns.length = none :=
      (scanLoop_eq_none st ev.fns f ev.fns.length).mpr (fun i _ => hnone i)
    simp [runBody, hev, hscan]
  · have hklt : k < ev.fns.length := matchAt_lt st ev.fns f k hk.1
    have hne0 : scanLoop st ev.fns f ev.fns.length ≠ none := by
      intro hc
      have hf := (scanLoop_eq_none st ev.fns f ev.fns.length).mp hc k hklt
      rw [hk.1] at hf
      cases hf
    obtain ⟨k2, hk2⟩ : ∃ k2, scanLoop st ev.fns f ev.fns.length = some k2 := by
      cases hsc : scanLoop st ev.fns f ev.fns.length with
      | none => exact absurd hsc hne0
      | some k2 => exact ⟨k2, rfl⟩
    obtain ⟨hlt2, hmat2, habove2⟩ := scanLoop_eq_some st ev.fns f ev.fns.length k2 hk2
    have hlast2 : isLastMatch st ev.fns f k2 := by
      refine ⟨hmat2, fun j hj => ?_⟩
      by_cases hjl : j < ev.fns.length
      · exact habove2 j hj hjl
      · exact matchAt_false_of_le st ev.fns f j (by omega)
    have hkk : k2 = k := isLastMatch_unique st ev.fns f k2 k hlast2 hk
    subst hkk
    simp only [runBody, hev, hk2]
    cases hr : run beh fuel (setEv st e { ev with fns := ev.fns.eraseIdx k2 })
        (.emit "removeListener" [.str e, .fn f]) with
    | ok st2 r2 => rfl
    | thrown st2 v => rfl
    | fuel st2 => rfl

/-- Witness for `removeListener_last_match_spec` on a concrete list with
a duplicate registration of callback 5: the last occurrence (position 2)
is the one removed, and the `"removeListener"` event is emitted from the
spliced state. -/
theorem removeListener_last_match_spec_witness :
    getEv st9w "z" = some ⟨[.user 5, .user 6, .user 5], false⟩ ∧
    isLastMatch st9w [.user 5, .user 6, .user 5] (.user 5) 2 ∧
    run behNop 3 st9w (.removeL "z" (.user 5)) =
      fluent (run behNop 2 (setEv st9w "z" ⟨[.user 5, .user 6], false⟩)
        (.emit "removeListener" [.str "z", .fn (.user 5)])) :=
  ⟨rfl,
    ⟨rfl, fun j hj => matchAt_false_of_le st9w [.user 5, .user 6, .user 5] (.user 5) j hj⟩,
    ((removeListener_last_match_spec behNop 2 st9w "z" (.user 5)).2
      ⟨[.user 5, .user 6, .user 5], false⟩ rfl).2 2
      ⟨rfl, fun j hj => matchAt_false_of_le st9w [.user 5, .user 6, .user 5] (.user 5) j hj⟩⟩
